import Mathlib

/-!
Verification of the cerbero packaging layer (python sources under
`cerbero/packages/package.py`, `cerbero/packages/rpm.py` and
`cerbero/utils/__init__.py`) against its natural-language specification.

The python classes are shallowly embedded: object state becomes Lean
structures, attribute reads and methods become pure functions, external
collaborators (the recipe cookbook and the package store) become function
parameters, and fallible code returns `Except`.
-/

namespace Cerbero

/-- Modelled from the spec: the two package modes RUNTIME and DEVEL
(section 3, "a mode in RUNTIME, DEVEL").  The constants live in
`cerbero/packages/__init__.py`, which is not part of the sources. -/
inductive PackageType where
  | runtime
  | devel
deriving DecidableEq, Repr

/-- Modelled from the spec: the per-mode name marker, "a distinct, stable
suffix per mode" (section 4.1).  In the source the mode value itself is the
string appended to the stored name (`attr += self.package_mode`). -/
def PackageType.marker : PackageType → String
  | .runtime => ""
  | .devel => "-devel"

/-- Python truthiness of a mode value.  The mode constants are the
marker strings themselves (`attr += self.package_mode`, package.py line
209; runtime artifacts keep the unsuffixed name), so RUNTIME is the
empty string — falsy — while DEVEL is truthy. -/
def PackageType.truthy (m : PackageType) : Bool :=
  m.marker ≠ ""

/-- Target configuration fields consulted by the packaging code
(`self.config` in the source).  Only the fields the embedded code reads. -/
structure Config where
  target_platform : String
  target_arch : String
  target_distro : String
  target_distro_version : String
  distro : String
  distro_version : String
  install_dir : String
  sources : String
deriving DecidableEq, Repr

/-- Python dict membership test (`k in d`), for a dict embedded as an
association list. -/
def dictMem (d : List (String × List String)) (k : String) : Bool :=
  d.any (fun kv => kv.1 = k)

/-- Python dict indexing (`d[k]`) for a key known to be present; returns
`[]` when absent (the source only indexes after a membership test). -/
def dictGet (d : List (String × List String)) (k : String) : List String :=
  match d.find? (fun kv => kv.1 = k) with
  | some kv => kv.2
  | none => []

/-- The stored state of `PackageBase` (package.py lines 86-121): the raw
attribute values before `__getattribute__` interception, plus the active
mode set by the constructor / `set_mode`. -/
structure PackageBase where
  storedName : String
  storedShortdesc : String
  storedUuid : Option String
  package_mode : PackageType
  sys_deps : List (String × List String)
  sys_deps_devel : List (String × List String)
deriving DecidableEq, Repr

namespace PackageBase

/-- `set_mode` (package.py lines 174-175): `self.package_mode = package_type`. -/
def set_mode (p : PackageBase) (package_type : PackageType) : PackageBase :=
  { p with package_mode := package_type }

/-- Reading `name` through `__getattribute__` (package.py lines 208-209):
`attr += self.package_mode`. -/
def getName (p : PackageBase) : String :=
  p.storedName ++ p.package_mode.marker

/-- Reading `shortdesc` through `__getattribute__` (package.py lines
210-212): the DEVEL marker is appended on read. -/
def getShortdesc (p : PackageBase) : String :=
  if p.package_mode = PackageType.devel then
    p.storedShortdesc ++ " (Development Files)"
  else
    p.storedShortdesc

/-- The uuid first-character toggle applied on DEVEL reads (package.py
lines 216-222): `uuid = list(attr); if uuid[0] != '0': uuid[0] = '0' else
uuid[0] = '1'`.  `none` models the IndexError CPython raises on an empty
uuid string. -/
def develUuid (u : String) : Option String :=
  match u.data with
  | [] => none
  | c :: cs => some (String.mk ((if c ≠ '0' then '0' else '1') :: cs))

/-- Reading `uuid` through `__getattribute__` (package.py lines 213-222).
The outer `Option` is the error channel of the empty-uuid IndexError; the
inner one mirrors the stored value, which may be `None`. -/
def getUuid (p : PackageBase) : Option (Option String) :=
  match p.package_mode, p.storedUuid with
  | PackageType.devel, some u => (develUuid u).map some
  | _, u => some u

/-- `get_sys_deps` (package.py lines 183-194).  The first line is
`package_mode = package_mode or self.package_mode`: python `or` keeps
the argument only when it is truthy, so both `None` and an explicit
RUNTIME — the falsy empty mode string — fall back to the active mode.
The two `if` tests select the map, then the lookup falls from exact
distro-version to distro to `[]`. -/
def get_sys_deps (p : PackageBase) (cfg : Config)
    (package_mode : Option PackageType := none) : List String :=
  let pm := match package_mode with
    | some m => if m.truthy then m else p.package_mode
    | none => p.package_mode
  let sys_deps :=
    if pm = PackageType.runtime then p.sys_deps else p.sys_deps_devel
  if dictMem sys_deps cfg.target_distro_version then
    dictGet sys_deps cfg.target_distro_version
  else if dictMem sys_deps cfg.target_distro then
    dictGet sys_deps cfg.target_distro
  else
    []

end PackageBase

end Cerbero

namespace Cerbero

/-- C2: starting from the constructed RUNTIME mode, switching to DEVEL and
back to RUNTIME reproduces the reads of `name`, `shortdesc` and `uuid`,
and no `set_mode` call ever mutates the stored fields. -/
theorem c2_set_mode_roundtrip (p : PackageBase)
    (h : p.package_mode = PackageType.runtime) :
    (((p.set_mode PackageType.devel).set_mode PackageType.runtime).getName
        = p.getName
      ∧ ((p.set_mode PackageType.devel).set_mode PackageType.runtime).getShortdesc
        = p.getShortdesc
      ∧ ((p.set_mode PackageType.devel).set_mode PackageType.runtime).getUuid
        = p.getUuid)
    ∧ ∀ m : PackageType,
        (p.set_mode m).storedName = p.storedName
        ∧ (p.set_mode m).storedShortdesc = p.storedShortdesc
        ∧ (p.set_mode m).storedUuid = p.storedUuid := by
  refine ⟨⟨?_, ?_, ?_⟩, fun m => ⟨rfl, rfl, rfl⟩⟩
  · simp [PackageBase.set_mode, PackageBase.getName, h]
  · simp [PackageBase.set_mode, PackageBase.getShortdesc, h]
  · simp [PackageBase.set_mode, PackageBase.getUuid, h]

theorem c2_set_mode_roundtrip_witness :
    let p : PackageBase :=
      { storedName := "gstreamer", storedShortdesc := "GStreamer",
        storedUuid := some "abc-123", package_mode := PackageType.runtime,
        sys_deps := [], sys_deps_devel := [] }
    ((p.set_mode PackageType.devel).set_mode PackageType.runtime).getName
      = p.getName := by
  intro p
  exact (c2_set_mode_roundtrip p rfl).1.1

/-- `k in d` agrees with `d.find?` producing a result. -/
theorem dictMem_eq_isSome (d : List (String × List String)) (k : String) :
    dictMem d k = (d.find? (fun kv => kv.1 = k)).isSome := by
  induction d with
  | nil => rfl
  | cons x xs ih =>
    simp only [dictMem, List.any_cons] at ih ⊢
    rw [List.find?_cons]
    cases hx : (decide (x.1 = k)) <;> simp [hx, ih]

theorem dict_lookup_chain (d : List (String × List String)) (k1 k2 : String) :
    (if dictMem d k1 then dictGet d k1
     else if dictMem d k2 then dictGet d k2
     else []) =
      (match d.find? (fun kv => kv.1 = k1) with
      | some kv => kv.2
      | none =>
        match d.find? (fun kv => kv.1 = k2) with
        | some kv => kv.2
        | none => ([] : List String)) := by
  rcases h1 : d.find? (fun kv => kv.1 = k1) with _ | kv1
  · rw [if_neg (by rw [dictMem_eq_isSome, h1]; simp)]
    rcases h2 : d.find? (fun kv => kv.1 = k2) with _ | kv2
    · rw [if_neg (by rw [dictMem_eq_isSome, h2]; simp)]
      simp only [h1, h2]
    · rw [if_pos (by rw [dictMem_eq_isSome, h2]; simp), dictGet, h2]
      simp only [h1]
  · rw [if_pos (by rw [dictMem_eq_isSome, h1]; simp), dictGet, h1]

/-- C8 counterexample: RUNTIME is the falsy empty mode string, so the
python `package_mode or self.package_mode` default discards an explicit
RUNTIME argument.  On a descriptor switched to DEVEL mode,
`get_sys_deps(RUNTIME)` returns the devel map entry, not the runtime
one the claim promises. -/
theorem c8_counterexample_runtime_arg_ignored :
    let cfg : Config :=
      { target_platform := "linux", target_arch := "x86_64",
        target_distro := "fedora", target_distro_version := "fedora_33",
        distro := "fedora", distro_version := "fedora_33",
        install_dir := "/usr", sources := "/src" }
    let p : PackageBase :=
      { storedName := "gstreamer", storedShortdesc := "GStreamer",
        storedUuid := none, package_mode := PackageType.devel,
        sys_deps := [("fedora", ["rt-dep"])],
        sys_deps_devel := [("fedora", ["devel-dep"])] }
    p.get_sys_deps cfg (some PackageType.runtime) = ["devel-dep"]
      ∧ p.get_sys_deps cfg (some PackageType.runtime) ≠ ["rt-dep"] := by
  intro cfg p
  constructor
  · decide
  · decide

/-- C8 amended: `get_sys_deps(mode)` keeps an explicit DEVEL argument
but — RUNTIME being the falsy empty mode string — falls back to the
active mode for an explicit RUNTIME argument exactly as for the `None`
default; the selected map is then looked up by exact distro-version,
falling back to distro, falling back to the empty list, and the function
is total so it never raises. -/
theorem c8_amended_get_sys_deps (p : PackageBase) (cfg : Config)
    (m : Option PackageType) :
    p.get_sys_deps cfg m =
      (let eff := match m with
        | some PackageType.devel => PackageType.devel
        | _ => p.package_mode
      let sys_deps :=
        if eff = PackageType.runtime then p.sys_deps else p.sys_deps_devel
      match sys_deps.find? (fun kv => kv.1 = cfg.target_distro_version) with
      | some kv => kv.2
      | none =>
        match sys_deps.find? (fun kv => kv.1 = cfg.target_distro) with
        | some kv => kv.2
        | none => []) := by
  unfold PackageBase.get_sys_deps
  rcases m with _ | m
  · exact dict_lookup_chain _ cfg.target_distro_version cfg.target_distro
  · cases m
    · exact dict_lookup_chain _ cfg.target_distro_version cfg.target_distro
    · exact dict_lookup_chain _ cfg.target_distro_version cfg.target_distro

/-! ## File and category resolution (package.py, `Package`) -/

/-- Character-level string split, the behaviour of python `str.split(sep)`
for a one-character separator: consecutive separators yield empty fields
and the result is never empty. -/
def splitCharList (sep : Char) : List Char → List (List Char)
  | [] => [[]]
  | c :: cs =>
    let r := splitCharList sep cs
    if c = sep then [] :: r
    else
      match r with
      | h :: t => (c :: h) :: t
      | [] => [[c]]

/-- `s.split(sep)` for a one-character separator. -/
def pySplit (sep : Char) (s : String) : List String :=
  (splitCharList sep s.data).map String.mk

/-- One step of `_parse_files` (package.py lines 343-351): python dict
assignment `d[l[0]] = l[1:]`, replacing in place when the key exists and
appending otherwise. -/
def dictInsert (d : List (String × List String)) (k : String)
    (v : List String) : List (String × List String) :=
  if dictMem d k then
    d.map (fun kv => if kv.1 = k then (k, v) else kv)
  else
    d ++ [(k, v)]

/-- `_parse_files` applied to one entry list (package.py lines 343-351):
each entry `recipe[:category...]` is split on `:`; the first token keys
the dict, the remaining tokens are the category list. -/
def parseFiles (files : List String) : List (String × List String) :=
  files.foldl
    (fun d r =>
      let l := pySplit ':' r
      dictInsert d (l.headD "") l.tail)
    []

/-- The recipe interface of the external cookbook (spec section 6), as the
packaging code consumes it. -/
structure Recipe where
  dist_files_list : List String
  devel_files_list : List String
  files_list_by_categories : List String → List String
  files_list : List String
  libraries : List String

/-- The external recipe provider (cookbook, spec section 6). -/
structure Cookbook where
  get_recipe : String → Recipe
  list_recipe_deps : String → List Recipe

/-- Modelled from the spec: the "libraries" category marker
(`FilesProvider.LIBS_CAT` lives in `cerbero/build/filesprovider.py`, which
is not part of the sources). -/
def LIBS_CAT : String := "libs"

/-- Python `sorted` on strings: lexicographic over code points, which is
the `≤` of `String`. -/
def pySorted (l : List String) : List String :=
  l.insertionSort (· ≤ ·)

/-- The stored declarative file lists of `Package` (package.py lines
256-273). -/
structure Package where
  files : List String
  platform_files : List (String × List String)
  files_devel : List String
  platform_files_devel : List (String × List String)

namespace Package

/-- `load_files` (package.py lines 277-282): effective lists are the
common list with the platform override appended, then `_parse_files`.
Returns the pair `(_recipes_files, _recipes_files_devel)`. -/
def load_files (p : Package) (cfg : Config) :
    List (String × List String) × List (String × List String) :=
  (parseFiles (p.files ++ dictGet p.platform_files cfg.target_platform),
   parseFiles (p.files_devel ++ dictGet p.platform_files_devel cfg.target_platform))

/-- `files_list` (package.py lines 310-319), over the parsed
`_recipes_files` map: full dist list for a category-less entry, else the
category-filtered list, accumulated then sorted. -/
def files_list (cb : Cookbook)
    (recipes_files : List (String × List String)) : List String :=
  pySorted
    (recipes_files.foldl
      (fun files rc =>
        if rc.2 = [] then files ++ (cb.get_recipe rc.1).dist_files_list
        else files ++ (cb.get_recipe rc.1).files_list_by_categories rc.2)
      [])

/-- `devel_files_list` (package.py lines 321-336): devel files of runtime
entries whose category list is empty or contains the libs category, then
the devel entries themselves, accumulated then sorted. -/
def devel_files_list (cb : Cookbook)
    (recipes_files recipes_files_devel : List (String × List String)) :
    List String :=
  let files :=
    recipes_files.foldl
      (fun files rc =>
        if rc.2 = [] ∨ LIBS_CAT ∈ rc.2 then
          files ++ (cb.get_recipe rc.1).devel_files_list
        else files)
      []
  let files :=
    recipes_files_devel.foldl
      (fun files rc =>
        if rc.2 = [] then files ++ (cb.get_recipe rc.1).devel_files_list
        else files ++ (cb.get_recipe rc.1).files_list_by_categories rc.2)
      files
  pySorted files

/-- `all_files_list` (package.py lines 338-341). -/
def all_files_list (cb : Cookbook)
    (recipes_files recipes_files_devel : List (String × List String)) :
    List String :=
  pySorted
    (files_list cb recipes_files
      ++ devel_files_list cb recipes_files recipes_files_devel)

end Package

/-- A left fold that appends `f x` for every element equals the
concatenation of the mapped lists. -/
theorem foldl_extend {α β : Type} (f : α → List β) :
    ∀ (l : List α) (init : List β),
      l.foldl (fun acc x => acc ++ f x) init = init ++ (l.map f).flatten := by
  intro l
  induction l with
  | nil => intro init; simp
  | cons x xs ih =>
    intro init
    simp only [List.foldl_cons, List.map_cons, List.flatten_cons, ih,
      List.append_assoc]

theorem pySorted_sorted (l : List String) :
    (pySorted l).Sorted (· ≤ ·) :=
  List.sorted_insertionSort _ l

theorem pySorted_perm (l : List String) : (pySorted l).Perm l :=
  List.perm_insertionSort _ l

theorem mem_pySorted (l : List String) (a : String) :
    a ∈ pySorted l ↔ a ∈ l :=
  (pySorted_perm l).mem_iff

/-- The per-entry file selection of `files_list`, as the spec words it. -/
def entryFiles (cb : Cookbook) (rc : String × List String) : List String :=
  if rc.2 = [] then (cb.get_recipe rc.1).dist_files_list
  else (cb.get_recipe rc.1).files_list_by_categories rc.2

/-- C4: after `load_files`, `files_list` is a sorted permutation of the
concatenation of the per-entry selections: the full dist list for an
entry with no categories, only the named categories otherwise; membership
matches the per-entry rule. -/
theorem c4_files_list_resolution (p : Package) (cfg : Config) (cb : Cookbook) :
    ((Package.files_list cb (p.load_files cfg).1).Sorted (· ≤ ·))
    ∧ (Package.files_list cb (p.load_files cfg).1).Perm
        (((p.load_files cfg).1.map (entryFiles cb)).flatten)
    ∧ ∀ f, f ∈ Package.files_list cb (p.load_files cfg).1 ↔
        ∃ rc ∈ (p.load_files cfg).1, f ∈ entryFiles cb rc := by
  have hbody :
      (Package.files_list cb (p.load_files cfg).1) =
        pySorted (((p.load_files cfg).1.map (entryFiles cb)).flatten) := by
    unfold Package.files_list
    congr 1
    have hfun :
        (fun (files : List String) (rc : String × List String) =>
            if rc.2 = [] then files ++ (cb.get_recipe rc.1).dist_files_list
            else files ++ (cb.get_recipe rc.1).files_list_by_categories rc.2)
          = fun files rc => files ++ entryFiles cb rc := by
      funext files rc
      unfold entryFiles
      split <;> rfl
    rw [hfun, foldl_extend]
    simp
  refine ⟨?_, ?_, ?_⟩
  · rw [hbody]; exact pySorted_sorted _
  · rw [hbody]; exact pySorted_perm _
  · intro f
    rw [hbody, mem_pySorted, List.mem_flatten]
    constructor
    · rintro ⟨l, hl, hf⟩
      rcases List.mem_map.mp hl with ⟨rc, hrc, rfl⟩
      exact ⟨rc, hrc, hf⟩
    · rintro ⟨rc, hrc, hf⟩
      exact ⟨entryFiles cb rc, List.mem_map.mpr ⟨rc, hrc, rfl⟩, hf⟩

/-- The runtime-entry contribution to `devel_files_list`: the recipe devel
files when the category list is empty or names the libs category, nothing
otherwise. -/
def develFromRuntimeEntry (cb : Cookbook) (rc : String × List String) :
    List String :=
  if rc.2 = [] ∨ LIBS_CAT ∈ rc.2 then (cb.get_recipe rc.1).devel_files_list
  else []

/-- The devel-entry contribution to `devel_files_list`. -/
def develEntryFiles (cb : Cookbook) (rc : String × List String) :
    List String :=
  if rc.2 = [] then (cb.get_recipe rc.1).devel_files_list
  else (cb.get_recipe rc.1).files_list_by_categories rc.2

theorem devel_files_list_eq (cb : Cookbook)
    (rf rfd : List (String × List String)) :
    Package.devel_files_list cb rf rfd =
      pySorted ((rf.map (develFromRuntimeEntry cb)).flatten
        ++ (rfd.map (develEntryFiles cb)).flatten) := by
  unfold Package.devel_files_list
  have hfun1 :
      (fun (files : List String) (rc : String × List String) =>
          if rc.2 = [] ∨ LIBS_CAT ∈ rc.2 then
            files ++ (cb.get_recipe rc.1).devel_files_list
          else files)
        = fun files rc => files ++ develFromRuntimeEntry cb rc := by
    funext files rc
    unfold develFromRuntimeEntry
    split
    · rfl
    · simp
  have hfun2 :
      (fun (files : List String) (rc : String × List String) =>
          if rc.2 = [] then files ++ (cb.get_recipe rc.1).devel_files_list
          else files ++ (cb.get_recipe rc.1).files_list_by_categories rc.2)
        = fun files rc => files ++ develEntryFiles cb rc := by
    funext files rc
    unfold develEntryFiles
    split <;> rfl
  rw [hfun1, hfun2]
  simp only [foldl_extend]
  simp

/-- C5: a devel file enters `devel_files_list` from a runtime entry
exactly when that entry has no categories or names the libs category; an
entry with only non-library categories contributes nothing.  Devel
entries contribute through their own rule. -/
theorem c5_devel_inclusion_rule (cb : Cookbook)
    (rf rfd : List (String × List String)) (f : String) :
    f ∈ Package.devel_files_list cb rf rfd ↔
      (∃ rc ∈ rf, (rc.2 = [] ∨ LIBS_CAT ∈ rc.2)
          ∧ f ∈ (cb.get_recipe rc.1).devel_files_list)
      ∨ (∃ rc ∈ rfd, f ∈ develEntryFiles cb rc) := by
  rw [devel_files_list_eq, mem_pySorted, List.mem_append]
  constructor
  · rintro (hf | hf)
    · left
      rcases List.mem_flatten.mp hf with ⟨l, hl, hfl⟩
      rcases List.mem_map.mp hl with ⟨rc, hrc, rfl⟩
      unfold develFromRuntimeEntry at hfl
      split at hfl
      · next hcond => exact ⟨rc, hrc, hcond, hfl⟩
      · exact absurd hfl (List.not_mem_nil f)
    · right
      rcases List.mem_flatten.mp hf with ⟨l, hl, hfl⟩
      rcases List.mem_map.mp hl with ⟨rc, hrc, rfl⟩
      exact ⟨rc, hrc, hfl⟩
  · rintro (⟨rc, hrc, hcond, hf⟩ | ⟨rc, hrc, hf⟩)
    · left
      refine List.mem_flatten.mpr
        ⟨develFromRuntimeEntry cb rc, List.mem_map.mpr ⟨rc, hrc, rfl⟩, ?_⟩
      unfold develFromRuntimeEntry
      rw [if_pos hcond]
      exact hf
    · right
      exact List.mem_flatten.mpr
        ⟨develEntryFiles cb rc, List.mem_map.mpr ⟨rc, hrc, rfl⟩, hf⟩

/-! ## Dependency closure and de-duplication -/

/-- `remove_list_duplicates` (utils/`__init__`.py lines 403-407): a list
comprehension guarded by a growing seen set; an element is kept when not
yet seen. -/
def remove_list_duplicates (seq : List String) : List String :=
  (seq.foldl
    (fun acc x => if x ∈ acc.2 then acc else (acc.1 ++ [x], x :: acc.2))
    (([], []) : List String × List String)).1

/-- De-duplication as the spec words it: keep the first occurrence of
each element, in first-seen order. -/
def dedupFirstSpec : List String → List String
  | [] => []
  | x :: xs => x :: dedupFirstSpec (xs.filter (fun y => y ≠ x))
termination_by l => l.length
decreasing_by
  simp only [List.length_cons]
  exact Nat.lt_succ_of_le (List.length_filter_le _ _)

theorem dedupFirstSpec_nil : dedupFirstSpec [] = [] := by
  rw [dedupFirstSpec]

theorem dedupFirstSpec_cons (x : String) (xs : List String) :
    dedupFirstSpec (x :: xs)
      = x :: dedupFirstSpec (xs.filter (fun y => y ≠ x)) := by
  rw [dedupFirstSpec]

theorem remove_list_duplicates_go (seq : List String) :
    ∀ (acc seen : List String),
      (seq.foldl
        (fun acc x => if x ∈ acc.2 then acc else (acc.1 ++ [x], x :: acc.2))
        (acc, seen)).1
        = acc ++ dedupFirstSpec (seq.filter (fun y => y ∉ seen)) := by
  induction seq with
  | nil => intro acc seen; simp [dedupFirstSpec]
  | cons x xs ih =>
    intro acc seen
    by_cases hx : x ∈ seen
    · rw [List.foldl_cons]
      simp only [if_pos hx]
      rw [ih acc seen, List.filter_cons]
      simp [hx]
    · rw [List.foldl_cons]
      simp only [if_neg hx]
      rw [ih (acc ++ [x]) (x :: seen), List.filter_cons,
        if_pos (by simp [hx])]
      rw [dedupFirstSpec_cons, List.filter_filter, List.append_assoc,
        List.cons_append, List.nil_append]
      congr 3
      apply List.filter_congr
      intro a _
      simp only [List.mem_cons, decide_not, Bool.and_comm]
      rw [Bool.not_eq_eq_eq_not]
      simp only [Bool.not_and, Bool.not_not]
      rcases Decidable.em (a = x) with h | h <;>
        rcases Decidable.em (a ∈ seen) with h2 | h2 <;> simp [h, h2]

theorem remove_list_duplicates_eq (seq : List String) :
    remove_list_duplicates seq = dedupFirstSpec seq := by
  rw [remove_list_duplicates, remove_list_duplicates_go seq [] []]
  simp

theorem mem_dedupFirstSpec (l : List String) (a : String) :
    a ∈ dedupFirstSpec l ↔ a ∈ l := by
  induction l using dedupFirstSpec.induct with
  | case1 => simp [dedupFirstSpec]
  | case2 x xs ih =>
    rw [dedupFirstSpec]
    simp only [List.mem_cons, ih, List.mem_filter]
    rcases Decidable.em (a = x) with h | h <;> simp [h]

theorem nodup_dedupFirstSpec (l : List String) :
    (dedupFirstSpec l).Nodup := by
  induction l using dedupFirstSpec.induct with
  | case1 => simp [dedupFirstSpec]
  | case2 x xs ih =>
    rw [dedupFirstSpec]
    refine List.Nodup.cons ?_ ih
    intro hmem
    have := (mem_dedupFirstSpec _ _).mp hmem
    simp at this

/-- `MetaPackage.recipes_dependencies` (package.py lines 416-421): the
recipe dependencies of every resolved child, concatenated in store order,
then de-duplicated.  `childDeps` is the list of per-child
`recipes_dependencies()` results delivered by the external store. -/
def MetaPackage.recipes_dependencies (childDeps : List (List String)) :
    List String :=
  remove_list_duplicates
    (childDeps.foldl (fun deps l => deps ++ l) [])

/-- C6: the meta-package recipe dependencies are the children's
concatenated dependencies with duplicates removed keeping first
occurrences, so every recipe of a child appears exactly once. -/
theorem c6_meta_recipes_dependencies (childDeps : List (List String)) :
    MetaPackage.recipes_dependencies childDeps
        = dedupFirstSpec childDeps.flatten
    ∧ ∀ x ∈ childDeps.flatten,
        (MetaPackage.recipes_dependencies childDeps).count x = 1 := by
  have heq : MetaPackage.recipes_dependencies childDeps
      = dedupFirstSpec childDeps.flatten := by
    unfold MetaPackage.recipes_dependencies
    rw [remove_list_duplicates_eq]
    congr 1
    have := foldl_extend (fun l : List String => l) childDeps []
    simpa using this
  refine ⟨heq, ?_⟩
  intro x hx
  rw [heq]
  exact List.count_eq_one_of_mem (nodup_dedupFirstSpec _)
    ((mem_dedupFirstSpec _ _).mpr hx)

/-! ## App packages (package.py, `App`) -/

/-- The stored state of `App` (package.py lines 606-633) that the file and
dependency queries consult. -/
structure AppPkg where
  deps : List String
  app_recipe : Option String
  embed_deps : Bool
  package_mode : PackageType

/-- The store and cookbook services `App` consumes.  Package objects
resolved from the store are identified by name: `get_package` resolves a
dependency name, `get_package_deps` lists a resolved package's dependency
packages, and `pkg_files_list` is the `files_list()` of a resolved
package. -/
structure AppStore where
  get_package : String → String
  get_package_deps : String → List String
  pkg_files_list : String → List String

namespace App

/-- `App.recipes_dependencies` (package.py lines 635-642): extend with
every dependency package's `recipes_dependencies()` (delivered by
`recipesDepsOf` through the store), append the app recipe when
configured, and return `list(set(deps))`.  The python `set` iterates in
unspecified order, so the result is modelled as the finite set of its
elements. -/
def recipes_dependencies (recipesDepsOf : String → List String)
    (a : AppPkg) : Finset String :=
  ((a.deps.foldl (fun deps dep => deps ++ recipesDepsOf dep) [])
    ++ (match a.app_recipe with
        | some r => [r]
        | none => [])).toFinset

/-- The `for package in packages_deps: packages_deps.extend(...)` loop of
`App.files_list` (package.py lines 649-650): python iterates the list by
index while the body appends to it, so the traversal is a worklist whose
pending part keeps growing; on a cyclic store the python loop never
terminates, which the fuel parameter makes explicit (the claims proved
below hold for every fuel value). -/
def iterExtend (next : String → List String) :
    Nat → List String → List String → List String
  | _, done, [] => done
  | 0, done, pending => done ++ pending
  | Nat.succ f, done, p :: ps => iterExtend next f (done ++ [p]) (ps ++ next p)

/-- `App.files_list` (package.py lines 644-661).  When `embed_deps` is
set: resolve the dependency packages, close them under store dependency
edges, de-duplicate (`list(set(...))`, whose iteration order is
immaterial because the final list is sorted), then collect each package's
files and every library of the app recipe's dependency recipes.  The app
recipe's own files are always appended and the whole list sorted.  A
constructed App always has a recipe (`__init__` fetches
`get_recipe(app_recipe)`), so the empty-name default only totalizes the
model. -/
def files_list (st : AppStore) (cb : Cookbook) (a : AppPkg) (fuel : Nat) :
    List String :=
  let appRecipeName := a.app_recipe.getD ""
  let files : List String :=
    if a.embed_deps then
      let packages_deps :=
        iterExtend st.get_package_deps fuel [] (a.deps.map st.get_package)
      let packages_deps := dedupFirstSpec packages_deps
      (packages_deps.foldl (fun files p => files ++ st.pkg_files_list p) [])
        ++ ((cb.list_recipe_deps appRecipeName).foldl
            (fun files r => files ++ r.libraries) [])
    else []
  pySorted (files ++ (cb.get_recipe appRecipeName).files_list)

/-- `App.devel_files_list` (package.py lines 663-664): always empty. -/
def devel_files_list (_a : AppPkg) : List String := []

/-- `App.all_files_list` (package.py lines 666-667): delegates to
`files_list`. -/
def all_files_list (st : AppStore) (cb : Cookbook) (a : AppPkg)
    (fuel : Nat) : List String :=
  files_list st cb a fuel

end App

/-- A two-package store for the C3 counterexample: the dependency package
`dep-pkg` owns the single recipe `dep-recipe`. -/
def c3Store : String → List String :=
  fun n => if n = "dep-pkg" then ["dep-recipe"] else []

/-- C3 counterexample: an App with `embed_deps = False` and one dependency
package still reports that package's recipe, so the recipe-dependency set
is not just the application's own recipe: `embed_deps` is never consulted
by `recipes_dependencies`. -/
theorem c3_counterexample :
    ¬ (App.recipes_dependencies c3Store
        { deps := ["dep-pkg"], app_recipe := some "app-recipe",
          embed_deps := false, package_mode := PackageType.runtime }
        = {"app-recipe"}) := by decide

/-- C3 amended: independently of `embed_deps`, `recipes_dependencies`
returns the set of the dependency packages' recipe dependencies together
with the application's own recipe. -/
theorem c3_amended_recipes_dependencies
    (recipesDepsOf : String → List String) (a : AppPkg) :
    (∀ r, r ∈ App.recipes_dependencies recipesDepsOf a ↔
      ((∃ d ∈ a.deps, r ∈ recipesDepsOf d) ∨ a.app_recipe = some r))
    ∧ ∀ e, App.recipes_dependencies recipesDepsOf
        { a with embed_deps := e }
        = App.recipes_dependencies recipesDepsOf a := by
  constructor
  · intro r
    unfold App.recipes_dependencies
    rw [List.mem_toFinset, List.mem_append, foldl_extend]
    simp only [List.nil_append, List.mem_flatten]
    constructor
    · rintro (⟨l, hl, hr⟩ | hr)
      · rcases List.mem_map.mp hl with ⟨d, hd, rfl⟩
        exact Or.inl ⟨d, hd, hr⟩
      · right
        cases ha : a.app_recipe with
        | none => rw [ha] at hr; simp at hr
        | some r0 =>
          rw [ha] at hr
          simp only [List.mem_singleton] at hr
          rw [hr]
    · rintro (⟨d, hd, hr⟩ | hr)
      · exact Or.inl ⟨recipesDepsOf d, List.mem_map.mpr ⟨d, hd, rfl⟩, hr⟩
      · right
        rw [hr]
        simp
  · intro e
    rfl

/-- C10: for an App in any mode and for any `embed_deps` value,
`devel_files_list` is empty and `all_files_list` is exactly
`files_list`. -/
theorem c10_app_no_devel_files (st : AppStore) (cb : Cookbook) (a : AppPkg)
    (fuel : Nat) (m : PackageType) (e : Bool) :
    App.devel_files_list { a with package_mode := m, embed_deps := e } = []
    ∧ App.all_files_list st cb { a with package_mode := m, embed_deps := e }
        fuel
      = App.files_list st cb { a with package_mode := m, embed_deps := e }
          fuel :=
  ⟨rfl, rfl⟩

/-! ## Archive extraction (rpm.py, `setup_source`) -/

/-- Join path components with `/` separators (no leading separator). -/
def joinComps : List (List Char) → List Char
  | [] => []
  | [c] => c
  | c :: c2 :: cs => c ++ '/' :: joinComps (c2 :: cs)

/-- POSIX path normalisation on split components, the effect of
`os.path.abspath` on an absolute path: empty and `.` components vanish,
`..` pops the previous component (staying at the root when there is
none). -/
def normComps (comps : List (List Char)) : List (List Char) :=
  comps.foldl
    (fun acc c =>
      if c = [] ∨ c = ['.'] then acc
      else if c = ['.', '.'] then acc.dropLast
      else acc ++ [c])
    []

/-- `os.path.abspath` for an already-absolute POSIX path (the staging
directories handed to `setup_source` are absolute). -/
def abspath (p : String) : String :=
  String.mk ('/' :: joinComps (normComps (splitCharList '/' p.data)))

/-- Two-argument `os.path.join` on POSIX: an absolute second argument
replaces the first, otherwise the parts are separated by `/` unless one
is already present. -/
def pathJoin (p b : String) : String :=
  if b.data.head? = some '/' then b
  else if p = "" then b
  else if p.data.getLast? = some '/' then p ++ b
  else p ++ "/" ++ b

def commonPrefixChars : List Char → List Char → List Char
  | a :: as, b :: bs => if a = b then a :: commonPrefixChars as bs else []
  | _, [] => []
  | [], _ => []

/-- `os.path.commonprefix([a, b])`: the longest common character prefix —
a string operation, not a path operation. -/
def commonprefix (a b : String) : String :=
  String.mk (commonPrefixChars a.data b.data)

/-- `is_within_directory` (rpm.py lines 165-172): the check passes when
the character-wise common prefix of the two absolute paths is the
directory itself. -/
def is_within_directory (directory target : String) : Bool :=
  commonprefix (abspath directory) (abspath target) = abspath directory

/-- `safe_extract` (rpm.py lines 174-184): every member of the archive is
checked before `extractall` runs, so either the traversal error is raised
and no member is written, or every member is extracted.  `Except.ok`
carries the list of written members. -/
def safe_extract (tarMembers : List String) (path : String) :
    Except String (List String) :=
  if tarMembers.all (fun m => is_within_directory path (pathJoin path m))
  then Except.ok tarMembers
  else Except.error "Attempted Path Traversal in Tar File"

/-- The containment property as the spec words it: the resolved
destination stays within the target directory, i.e. after normalisation
the directory's components are a prefix of the destination's
components. -/
def resolvesWithin (directory target : String) : Bool :=
  (normComps (splitCharList '/' directory.data)).isPrefixOf
    (normComps (splitCharList '/' target.data))

theorem commonPrefixChars_self_append (a t : List Char) :
    commonPrefixChars a (a ++ t) = a := by
  induction a with
  | nil => cases t <;> rfl
  | cons c cs ih => simp [commonPrefixChars, ih]

theorem joinComps_append (xs zs : List (List Char)) :
    ∃ t, joinComps (xs ++ zs) = joinComps xs ++ t := by
  induction xs with
  | nil => exact ⟨joinComps zs, rfl⟩
  | cons x xs ih =>
    cases xs with
    | nil =>
      cases zs with
      | nil => exact ⟨[], by simp [joinComps]⟩
      | cons z zs => exact ⟨'/' :: joinComps (z :: zs), by simp [joinComps]⟩
    | cons x2 xs2 =>
      rcases ih with ⟨t, ht⟩
      refine ⟨t, ?_⟩
      have h2 : (x2 :: xs2) ++ zs = x2 :: (xs2 ++ zs) := List.cons_append ..
      calc joinComps ((x :: x2 :: xs2) ++ zs)
          = x ++ '/' :: joinComps ((x2 :: xs2) ++ zs) := by
            rw [List.cons_append, h2]
            rfl
        _ = x ++ '/' :: (joinComps (x2 :: xs2) ++ t) := by rw [ht]
        _ = (x ++ '/' :: joinComps (x2 :: xs2)) ++ t := by simp

/-- Soundness of the string test on genuinely contained paths: a
destination that resolves within the directory always passes
`is_within_directory`. -/
theorem is_within_directory_of_resolvesWithin (d t : String)
    (h : resolvesWithin d t = true) : is_within_directory d t = true := by
  unfold resolvesWithin at h
  rcases List.isPrefixOf_iff_prefix.mp h with ⟨zs, hzs⟩
  unfold is_within_directory commonprefix abspath
  rw [← hzs]
  rcases joinComps_append (normComps (splitCharList '/' d.data)) zs
    with ⟨tail, htail⟩
  rw [htail]
  simp only [String.data]
  rw [show ('/' :: (joinComps (normComps (splitCharList '/' d.data)) ++ tail))
      = ('/' :: joinComps (normComps (splitCharList '/' d.data))) ++ tail
    from rfl]
  rw [commonPrefixChars_self_append]
  simp

/-- C1 counterexample: from the staging directory `/stage/src`, the
archive member `../src-evil/x` resolves to `/stage/src-evil/x`, which
escapes the directory, yet `safe_extract` extracts it: the character-wise
`commonprefix` test accepts any sibling path whose name extends the
directory name. -/
theorem c1_counterexample :
    resolvesWithin "/stage/src" (pathJoin "/stage/src" "../src-evil/x")
        = false
    ∧ safe_extract ["../src-evil/x"] "/stage/src"
        = Except.ok ["../src-evil/x"] := by
  constructor
  · decide
  · unfold safe_extract
    rw [if_pos (by decide)]

/-- C1 amended: extraction validates every member with the string
common-prefix test before anything is written.  Any archive whose members
all genuinely resolve within the source directory is fully extracted;
when any member fails the common-prefix containment test, the traversal
error is raised and no member is written (but, per the counterexample, a
member escaping to a sibling path whose name extends the directory name
passes the test). -/
theorem c1_amended_extraction (members : List String) (path : String) :
    ((∀ m ∈ members, resolvesWithin path (pathJoin path m) = true) →
      safe_extract members path = Except.ok members)
    ∧ ((∃ m ∈ members,
          is_within_directory path (pathJoin path m) = false) →
      safe_extract members path
        = Except.error "Attempted Path Traversal in Tar File") := by
  constructor
  · intro h
    unfold safe_extract
    rw [if_pos]
    rw [List.all_eq_true]
    intro m hm
    exact is_within_directory_of_resolvesWithin _ _ (h m hm)
  · rintro ⟨m, hm, hfail⟩
    unfold safe_extract
    rw [if_neg]
    intro hall
    rw [List.all_eq_true] at hall
    rw [hall m hm] at hfail
    simp at hfail

theorem c1_amended_extraction_witness :
    safe_extract ["a/b", "c"] "/stage/src" = Except.ok ["a/b", "c"]
    ∧ safe_extract ["../../etc/passwd"] "/stage/src"
        = Except.error "Attempted Path Traversal in Tar File" :=
  ⟨(c1_amended_extraction ["a/b", "c"] "/stage/src").1 (by decide),
   (c1_amended_extraction ["../../etc/passwd"] "/stage/src").2
     ⟨"../../etc/passwd", by decide, by decide⟩⟩

/-! ## RPM build (rpm.py, `RPMPackager.build`) -/

/-- Modelled from the spec: the x86 architecture constant of the fixed
architecture-to-triple table (`cerbero/config.py` is not part of the
sources; the table needs two distinct architecture values). -/
def Architecture.X86 : String := "x86"

/-- Modelled from the spec: the x86-64 architecture constant. -/
def Architecture.X86_64 : String := "x86_64"

/-- Modelled from the spec: the RedHat distro constant
(`cerbero/enums.py` is not part of the sources). -/
def Distro.REDHAT : String := "redhat"

/-- Modelled from the spec: the fixed Fedora release threshold of the
no-debug-info capability probe. -/
def DistroVersion.FEDORA_26 : String := "fedora_26"

/-- Modelled from the spec: the fixed RHEL release threshold of the
no-debug-info capability probe. -/
def DistroVersion.REDHAT_7 : String := "redhat_7"

/-- Python substring test `pat in s` on character lists. -/
def hasSubChars (pat : List Char) : List Char → Bool
  | [] => pat.isEmpty
  | c :: cs => pat.isPrefixOf (c :: cs) || hasSubChars pat cs

def hasSub (pat s : String) : Bool :=
  hasSubChars pat.data s.data

/-- `_rpmbuild_support_nodebuginfo` (rpm.py lines 317-329): the
distro-family/version capability probe for `--nodebuginfo`. -/
def rpmbuild_support_nodebuginfo (cfg : Config) : Bool :=
  if ¬ (cfg.distro = Distro.REDHAT) then false
  else if hasSub "fedora" cfg.distro_version
      ∧ cfg.distro_version > DistroVersion.FEDORA_26 then true
  else if hasSub "redhat" cfg.distro_version
      ∧ cfg.distro_version > DistroVersion.REDHAT_7 then true
  else false

/-- `RPMPackager.build` (rpm.py lines 291-315): resolve the target triple
from the fixed table, raising a fatal error naming the architecture
before anything is invoked otherwise; then invoke rpmbuild and collect
every produced artifact into the output directory.  `Except.error`
carries the FatalError message (raised before the rpmbuild call, which
the short-circuit of the match makes structural); `Except.ok` carries the
invoked command line and the final artifact paths.  `packagedir` lists
the RPMS subdirectories with the files each contains. -/
def RPMPackager.build (cfg : Config)
    (output_dir tmpdir spec_path : String)
    (packagedir : List (String × List String)) :
    Except String (String × List String) :=
  let targetR : Except String String :=
    if cfg.target_arch = Architecture.X86 then
      Except.ok "i686-redhat-linux"
    else if cfg.target_arch = Architecture.X86_64 then
      Except.ok "x86_64-redhat-linux"
    else
      Except.error ("Architecture " ++ cfg.target_arch ++ " not supported")
  match targetR with
  | Except.error e => Except.error e
  | Except.ok target =>
    let extra_options :=
      if rpmbuild_support_nodebuginfo cfg then "--nodebuginfo" else ""
    let cmd := "rpmbuild -bb " ++ extra_options ++ " --buildroot "
      ++ tmpdir ++ "/buildroot --target " ++ target ++ " " ++ spec_path
    let paths := packagedir.foldl
      (fun paths d => paths ++ d.2.map (fun f => pathJoin output_dir f)) []
    Except.ok (cmd, paths)

/-- C9: for a target architecture other than X86 and X86_64, `build`
stops with the fatal error naming that architecture and never reaches the
rpmbuild invocation; for X86 the invoked command targets the triple
`i686-redhat-linux` and for X86_64 the triple `x86_64-redhat-linux`. -/
theorem c9_build_architecture_gate (cfg : Config)
    (output_dir tmpdir spec_path : String)
    (packagedir : List (String × List String))
    (h1 : cfg.target_arch ≠ Architecture.X86)
    (h2 : cfg.target_arch ≠ Architecture.X86_64) :
    (RPMPackager.build cfg output_dir tmpdir spec_path packagedir
        = Except.error ("Architecture " ++ cfg.target_arch ++ " not supported")
      ∧ ∃ pre suf, ("Architecture " ++ cfg.target_arch ++ " not supported")
          = pre ++ cfg.target_arch ++ suf)
    ∧ (∀ cfg2 : Config, cfg2.target_arch = Architecture.X86 →
        ∃ cmd paths,
          RPMPackager.build cfg2 output_dir tmpdir spec_path packagedir
            = Except.ok (cmd, paths)
          ∧ ∃ p s, cmd = p ++ "i686-redhat-linux" ++ s)
    ∧ (∀ cfg2 : Config, cfg2.target_arch = Architecture.X86_64 →
        ∃ cmd paths,
          RPMPackager.build cfg2 output_dir tmpdir spec_path packagedir
            = Except.ok (cmd, paths)
          ∧ ∃ p s, cmd = p ++ "x86_64-redhat-linux" ++ s) := by
  refine ⟨⟨?_, "Architecture ", " not supported", rfl⟩, ?_, ?_⟩
  · unfold RPMPackager.build
    rw [if_neg h1, if_neg h2]
  · intro cfg2 harch
    unfold RPMPackager.build
    rw [if_pos harch]
    refine ⟨_, _, rfl, ?_⟩
    refine ⟨"rpmbuild -bb "
      ++ (if rpmbuild_support_nodebuginfo cfg2 then "--nodebuginfo" else "")
      ++ " --buildroot " ++ tmpdir ++ "/buildroot --target ",
      " " ++ spec_path, ?_⟩
    simp only [← String.append_assoc]
  · intro cfg2 harch
    unfold RPMPackager.build
    rw [if_neg (by rw [harch]; decide), if_pos harch]
    refine ⟨_, _, rfl, ?_⟩
    refine ⟨"rpmbuild -bb "
      ++ (if rpmbuild_support_nodebuginfo cfg2 then "--nodebuginfo" else "")
      ++ " --buildroot " ++ tmpdir ++ "/buildroot --target ",
      " " ++ spec_path, ?_⟩
    simp only [← String.append_assoc]

theorem c9_build_architecture_gate_witness :
    let cfg : Config :=
      { target_platform := "linux", target_arch := "arm64",
        target_distro := "debian", target_distro_version := "debian_10",
        distro := "debian", distro_version := "debian_10",
        install_dir := "/usr", sources := "/src" }
    RPMPackager.build cfg "/out" "/tmpdir" "/tmpdir/p.spec" []
      = Except.error "Architecture arm64 not supported" := by
  intro cfg
  exact (c9_build_architecture_gate cfg "/out" "/tmpdir" "/tmpdir/p.spec" []
    (by decide) (by decide)).1.1

/-! ## RPM spec rendering (rpm.py, `RPMPackager.prepare`)

The rendered spec document is modelled by its list of physical lines:
the python `%` substitution inserts each value at a placeholder that sits
on a line of its own, so a value contributes exactly its newline
decomposition (the empty string contributes one empty line, a value with
a trailing newline contributes a trailing empty line).  Every multi-line
template constant below is transcribed line by line from rpm.py. -/

def strEndsWith (s t : String) : Bool := t.data.isSuffixOf s.data

/-- Modelled from the spec: `LinuxPackager.files_list`
(`cerbero/packages/linux.py` is not part of the sources) returns the
resolved file list for the requested package type and raises
`EmptyPackageError` — `Except.error ()` here — when that list is empty
(the "empty package" condition of spec section 4.5). -/
def files_list_result (files : List String) : Except Unit (List String) :=
  if files = [] then Except.error () else Except.ok files

/-- The `.pyc`/`.pyo` completion loop of `_files_string_list` (rpm.py
lines 351-355): for every `.py` file of the snapshot, append the
compiled names when the growing list does not hold them yet. -/
def addPycPyo (files : List String) : List String :=
  (files.filter (fun f => strEndsWith f ".py")).foldl
    (fun acc f =>
      let acc2 := if (f ++ "c") ∈ acc then acc else acc ++ [f ++ "c"]
      if (f ++ "o") ∈ acc2 then acc2 else acc2 ++ [f ++ "o"])
    files

/-- `_files_string_list` (rpm.py lines 347-356) as the list of manifest
lines whose newline join it returns: the empty string for a
meta-package, otherwise one `%{prefix}`-joined line per resolved file,
with the EmptyPackageError of `files_list` propagating. -/
def files_string_lines (meta : Bool) (files : List String) :
    Except Unit (List String) :=
  if meta then Except.ok []
  else
    match files_list_result files with
    | Except.error e => Except.error e
    | Except.ok fs =>
      Except.ok ((addPycPyo fs).map (fun x => pathJoin "%\x7bprefix\x7d" x))

/-- The newline decomposition of a fragment value that is either absent
(the empty string: one empty line) or a joined line list. -/
def valueLines (e : Except Unit (List String)) : List String :=
  match e with
  | Except.error _ => [""]
  | Except.ok [] => [""]
  | Except.ok ls => ls

/-- One `Requires:` line per dependency (REQUIRE_TPL, rpm.py line 141). -/
def requiresLines (deps : List String) : List String :=
  deps.map (fun d => "Requires: " ++ d)

def commaJoin (xs : List String) : String :=
  String.intercalate ", " xs

/-- The Provides/Conflicts/Obsoletes fragment (rpm.py lines 256-265 and
369-376) as its physical lines: the source concatenates
`Provides: ...` and newline-led `Conflicts: ...` / `Obsoletes: ...`
pieces onto an initially empty string, so an empty fragment and a
fragment led by a conditional piece both open with an empty first
line. -/
def pcoLines (provides conflicts obsoletes : List String) : List String :=
  (if provides = [] then [""] else ["Provides: " ++ commaJoin provides])
    ++ (if conflicts = [] then [] else ["Conflicts: " ++ commaJoin conflicts])
    ++ (if obsoletes = [] then [] else ["Obsoletes: " ++ commaJoin obsoletes])

/-- The package state `RPMPackager.prepare` consumes, with the values the
surrounding packager machinery (cerbero/packages/linux.py, not part of
the sources) delivers taken as inputs: `name` and `summary` are the
mode-suffixed attribute reads, `runtimeReqs`/`develReqs` the results of
`get_requires` for each package type, `runtimeFiles`/`develFiles` the
resolved file lists, and the three script fields the
substitution-expanded resource file bodies (as lines) when the resource
file exists. -/
structure RpmPrepInput where
  name : String
  version : String
  summary : String
  longdesc : String
  vendor : String
  url : String
  licensesStr : String
  packager : String
  pkgPre : String
  full_package_name : String
  tarname : String
  topdir : String
  sources_dir : String
  install_dir : String
  build_meta_package : Bool
  devel : Bool
  runtimeFiles : List String
  develFiles : List String
  runtimeReqs : List String
  develReqs : List String
  providesR : List String
  conflictsR : List String
  obsoletesR : List String
  providesD : List String
  conflictsD : List String
  obsoletesD : List String
  preinstall : Option (List String)
  postinstall : Option (List String)
  postremove : Option (List String)

namespace RpmPrepInput

/-- The `description` substitution (rpm.py lines 240-241): python
`longdesc != 'default' and longdesc or shortdesc`, whose `and`/`or`
falls back to the summary when `longdesc` is `'default'` or empty. -/
def description (inp : RpmPrepInput) : String :=
  if inp.longdesc ≠ "default" ∧ inp.longdesc ≠ "" then inp.longdesc
  else inp.summary

/-- The `url` substitution (rpm.py lines 245-246): `URL_TPL % url` (which
ends in a newline) when the url is set, the empty string otherwise. -/
def urlValueLines (inp : RpmPrepInput) : List String :=
  if inp.url ≠ "default" then ["URL: " ++ inp.url, ""] else [""]

/-- The `scripts` fragment (rpm.py lines 267-282) as its physical lines:
each present resource contributes its section marker line (PRE_TPL /
POST_TPL / POSTUN_TPL) followed by the script body, and each piece's
closing newline runs the pieces together; the fragment value always ends
with one empty line (its own trailing newline, or the empty value). -/
def scriptPiece (tpl : String) (o : Option (List String)) : List String :=
  match o with
  | some ls => tpl :: ls
  | none => []

def scriptsValueLines (inp : RpmPrepInput) : List String :=
  (scriptPiece "%pre" inp.preinstall
    ++ scriptPiece "%post" inp.postinstall
    ++ scriptPiece "%postun" inp.postremove)
  ++ [""]

/-- The runtime `%files` manifest fragment (rpm.py lines 200-207): the
manifest lines (one empty line when the package is empty), with the
install-dir line appended when the install dir is not a standard
prefix. -/
def runtimeFilesValueLines (inp : RpmPrepInput) : List String :=
  valueLines (files_string_lines inp.build_meta_package inp.runtimeFiles)
    ++ (if inp.install_dir = "/usr" ∨ inp.install_dir = "/usr/local" then []
        else [pathJoin inp.install_dir ""])

/-- `_devel_package_and_files` (rpm.py lines 358-382): the rendered
DEVEL_PACKAGE_TPL as physical lines (its summary and description are
`Development files for <name>`, its Provides always leads with the
`-devel` name), paired with the DEVEL_TPL fragment lines — empty when
the devel file list raises EmptyPackageError. -/
def develPackageAndFilesLines (inp : RpmPrepInput) :
    List String × List String :=
  let dp :=
    ["", "%package devel"]
      ++ (requiresLines inp.develReqs ++ [""])
      ++ ["Summary: Development files for " ++ inp.name]
      ++ pcoLines ((inp.pkgPre ++ inp.name ++ "-devel") :: inp.providesD)
          inp.conflictsD inp.obsoletesD
      ++ ["", "%description devel", "Development files for " ++ inp.name, ""]
  let dfiles :=
    match files_string_lines inp.build_meta_package inp.develFiles with
    | Except.error _ => [""]
    | Except.ok ls => "%files devel " :: (if ls = [] then [""] else ls)
  (dp, dfiles)

/-- The workaround comment block of SPEC_TPL (rpm.py lines 68-81),
verbatim. -/
def specCommentLines : List String :=
  ["# Workaround to remove full source dir paths from debuginfo packages",
   "# (tested in Fedora 16/17).",
   "#",
   "# What happens is that rpmbuild invokes find-debuginfo.sh which in turn",
   "# calls debugedit passing $RPM_BUILD_DIR as the \"base-dir\" param (-b) value.",
   "# debugedit then removes the \"base-dir\" path from debug information.",
   "#",
   "# Normally packages are built inside $RPM_BUILD_DIR, thus resulting in proper",
   "# debuginfo packages, but as we are building our recipes at $sources_dir and",
   "# only including binaries here directly, no path would be removed and debuginfo",
   "# packages containing full paths to source files would be used.",
   "#",
   "# Setting RPM_BUILD_DIR to $sources_dir should do the trick, setting here and",
   "# hoping for the best."]

/-- The fixed header of SPEC_TPL (rpm.py lines 34-50) with its inline
substitutions, line by line. -/
def headerLines (inp : RpmPrepInput) : List String :=
  ["",
   "%define _topdir " ++ inp.topdir,
   "%define _package_name " ++ inp.full_package_name,
   "%undefine _debugsource_packages",
   "%undefine _debuginfo_subpackages",
   "",
   "Name:           " ++ (inp.pkgPre ++ inp.name),
   "Version:        " ++ inp.version,
   "Release:        1",
   "Summary:        " ++ inp.summary,
   "Source:         " ++ inp.tarname,
   "Group:          Applications/Internet",
   "License:        " ++ inp.licensesStr,
   "Prefix:         " ++ inp.install_dir,
   "Packager:       " ++ inp.packager,
   "Vendor:         " ++ inp.vendor]

/-- The fixed prep/build/install block of SPEC_TPL (rpm.py lines 59-66). -/
def prepBlockLines : List String :=
  ["", "%prep", "%setup -n %\x7b_package_name\x7d", "", "%build", "",
   "%install",
   "mkdir -p $RPM_BUILD_ROOT/%\x7bprefix\x7d",
   "cp -r $RPM_BUILD_DIR/%\x7b_package_name\x7d/* $RPM_BUILD_ROOT/%\x7bprefix\x7d",
   ""]

/-- The workaround comment, export and clean block of SPEC_TPL (rpm.py
lines 68-86). -/
def cleanBlockLines (inp : RpmPrepInput) : List String :=
  specCommentLines
    ++ ["export RPM_BUILD_DIR=" ++ inp.sources_dir,
        "", "%clean", "rm -rf $RPM_BUILD_ROOT", ""]

/-- `RPMPackager.prepare` for a non-meta package (rpm.py lines 200-289):
the SPEC_TPL document rendered with the substitution dict, line by line.
The devel package block and devel files fragment are produced by
`_devel_package_and_files` when the packager runs with devel enabled and
are empty values otherwise. -/
def renderedSpecLines (inp : RpmPrepInput) : List String :=
  let dp := if inp.devel then develPackageAndFilesLines inp
            else ([""], [""])
  headerLines inp
  ++ inp.urlValueLines
  ++ (requiresLines inp.runtimeReqs ++ [""])
  ++ pcoLines inp.providesR inp.conflictsR inp.obsoletesR
  ++ ["", "%description", inp.description, ""]
  ++ dp.1
  ++ prepBlockLines
  ++ cleanBlockLines inp
  ++ inp.scriptsValueLines
  ++ ["", "%files"]
  ++ inp.runtimeFilesValueLines
  ++ [""]
  ++ dp.2
  ++ [""]

end RpmPrepInput

/-- A line opens a `%files devel` block. -/
def isDevelFilesLine (l : String) : Bool :=
  "%files devel".data.isPrefixOf l.data

/-- The number of `%files devel` block openings in a rendered document. -/
def countDevelFilesBlocks (lines : List String) : Nat :=
  lines.countP (fun l => isDevelFilesLine l)

theorem isPrefixOf_cons_cons (a b : Char) (as bs : List Char) :
    List.isPrefixOf (a :: as) (b :: bs) = (a == b && List.isPrefixOf as bs) :=
  rfl

/-- A line whose first character differs from `%` opens no block. -/
theorem isDevelFilesLine_false_head (a b : String) (c : Char) (cs : List Char)
    (ha : a.data = c :: cs) (hc : c ≠ '%') :
    isDevelFilesLine (a ++ b) = false := by
  unfold isDevelFilesLine
  rw [String.data_append, ha, List.cons_append,
    show "%files devel".data = '%' :: "files devel".data from rfl,
    isPrefixOf_cons_cons]
  have hb : ('%' == c) = false :=
    beq_eq_false_iff_ne.mpr (fun he => hc he.symm)
  rw [hb, Bool.false_and]

/-- A line opening with `%` but continuing with a character other than
`f` opens no block. -/
theorem isDevelFilesLine_false_second (a b : String) (c : Char)
    (cs : List Char) (ha : a.data = '%' :: c :: cs) (hc : c ≠ 'f') :
    isDevelFilesLine (a ++ b) = false := by
  unfold isDevelFilesLine
  rw [String.data_append, ha, List.cons_append, List.cons_append,
    show "%files devel".data = '%' :: 'f' :: "iles devel".data from rfl,
    isPrefixOf_cons_cons, isPrefixOf_cons_cons]
  have hb : ('f' == c) = false :=
    beq_eq_false_iff_ne.mpr (fun he => hc he.symm)
  rw [hb]
  simp

/-- A `%{prefix}`-joined manifest line opens no block: an absolute path
starts with `/`, a joined one with `%{`. -/
theorem isDevelFilesLine_manifest_line (x : String) :
    isDevelFilesLine (pathJoin "%\x7bprefix\x7d" x) = false := by
  unfold pathJoin
  by_cases h1 : x.data.head? = some '/'
  · rw [if_pos h1]
    cases hd : x.data with
    | nil => rw [hd] at h1; simp at h1
    | cons c cs =>
      rw [hd] at h1
      simp only [List.head?_cons, Option.some.injEq] at h1
      unfold isDevelFilesLine
      rw [hd, h1,
        show "%files devel".data = '%' :: "files devel".data from rfl,
        isPrefixOf_cons_cons,
        show ('%' == '/') = false from rfl, Bool.false_and]
  · rw [if_neg h1, if_neg (by decide), if_neg (by decide)]
    exact isDevelFilesLine_false_second ("%\x7bprefix\x7d" ++ "/") x '{' _
      rfl (by decide)

theorem countP_requiresLines (deps : List String) :
    (requiresLines deps).countP (fun l => isDevelFilesLine l) = 0 := by
  apply List.countP_eq_zero.mpr
  intro a ha
  rcases List.mem_map.mp ha with ⟨d, _, rfl⟩
  simp only [Bool.not_eq_true]
  exact isDevelFilesLine_false_head "Requires: " d 'R' _ rfl (by decide)

theorem countP_pcoLines (p c o : List String) :
    (pcoLines p c o).countP (fun l => isDevelFilesLine l) = 0 := by
  apply List.countP_eq_zero.mpr
  intro a ha
  unfold pcoLines at ha
  simp only [List.mem_append] at ha
  simp only [Bool.not_eq_true]
  rcases ha with (ha | ha) | ha
  · split at ha
    · simp only [List.mem_singleton] at ha
      rw [ha]; rfl
    · simp only [List.mem_singleton] at ha
      rw [ha]
      exact isDevelFilesLine_false_head "Provides: " _ 'P' _ rfl (by decide)
  · split at ha
    · simp at ha
    · simp only [List.mem_singleton] at ha
      rw [ha]
      exact isDevelFilesLine_false_head "Conflicts: " _ 'C' _ rfl (by decide)
  · split at ha
    · simp at ha
    · simp only [List.mem_singleton] at ha
      rw [ha]
      exact isDevelFilesLine_false_head "Obsoletes: " _ 'O' _ rfl (by decide)

theorem mem_valueLines_ok (ls : List String) (a : String)
    (ha : a ∈ valueLines (Except.ok ls)) : a = "" ∨ a ∈ ls := by
  unfold valueLines at ha
  cases ls with
  | nil => simp only [List.mem_singleton] at ha; exact Or.inl ha
  | cons l ls => exact Or.inr ha

theorem countP_valueLines_files (meta : Bool) (files : List String) :
    (valueLines (files_string_lines meta files)).countP
      (fun l => isDevelFilesLine l) = 0 := by
  apply List.countP_eq_zero.mpr
  intro a ha
  simp only [Bool.not_eq_true]
  unfold files_string_lines at ha
  cases meta with
  | true =>
    simp only [if_pos] at ha
    rcases mem_valueLines_ok _ _ ha with rfl | hmem
    · rfl
    · simp at hmem
  | false =>
    simp only [Bool.false_eq_true, if_false] at ha
    unfold files_list_result at ha
    split at ha
    · unfold valueLines at ha
      simp only [List.mem_singleton] at ha
      rw [ha]; rfl
    · rcases mem_valueLines_ok _ _ ha with rfl | hmem
      · rfl
      · rcases List.mem_map.mp hmem with ⟨x, _, rfl⟩
        exact isDevelFilesLine_manifest_line x

theorem countP_scriptPiece (tpl : String) (o : Option (List String))
    (htpl : isDevelFilesLine tpl = false)
    (h : ∀ l ∈ o.getD [], isDevelFilesLine l = false) :
    (RpmPrepInput.scriptPiece tpl o).countP (fun l => isDevelFilesLine l)
      = 0 := by
  apply List.countP_eq_zero.mpr
  intro a ha
  simp only [Bool.not_eq_true]
  cases o with
  | none => simp [RpmPrepInput.scriptPiece] at ha
  | some ls =>
    simp only [RpmPrepInput.scriptPiece, List.mem_cons] at ha
    rcases ha with rfl | ha
    · exact htpl
    · exact h a (by simpa using ha)


/-- The string holds no newline characters, so it renders as a single
physical line (the fidelity condition of the line-list document model). -/
def noNL (s : String) : Prop := ∀ c ∈ s.data, c ≠ '\n'

instance noNL.instDecidable (s : String) : Decidable (noNL s) :=
  inferInstanceAs (Decidable (∀ c ∈ s.data, c ≠ '\n'))

/-- Well-formedness of a prepare input: every free-form value renders as
physical lines that do not themselves open a `%files devel` block, and
the single-line fields hold no newline. -/
def RpmPrepInput.wf (inp : RpmPrepInput) : Prop :=
  (∀ l ∈ inp.preinstall.getD [] ++ inp.postinstall.getD []
      ++ inp.postremove.getD [], noNL l ∧ isDevelFilesLine l = false)
  ∧ isDevelFilesLine inp.description = false
  ∧ isDevelFilesLine (pathJoin inp.install_dir "") = false
  ∧ (noNL inp.name ∧ noNL inp.version ∧ noNL inp.summary
      ∧ noNL inp.longdesc ∧ noNL inp.vendor ∧ noNL inp.url
      ∧ noNL inp.licensesStr ∧ noNL inp.packager ∧ noNL inp.pkgPre
      ∧ noNL inp.full_package_name ∧ noNL inp.tarname ∧ noNL inp.topdir
      ∧ noNL inp.sources_dir ∧ noNL inp.install_dir)
  ∧ (∀ x ∈ inp.runtimeFiles ++ inp.develFiles ++ inp.runtimeReqs
      ++ inp.develReqs ++ inp.providesR ++ inp.conflictsR
      ++ inp.obsoletesR ++ inp.providesD ++ inp.conflictsD
      ++ inp.obsoletesD, noNL x)

instance RpmPrepInput.wf.instDecidable (inp : RpmPrepInput) :
    Decidable inp.wf := by
  unfold RpmPrepInput.wf
  infer_instance

theorem countP_headerLines (inp : RpmPrepInput) :
    (RpmPrepInput.headerLines inp).countP (fun l => isDevelFilesLine l)
      = 0 := by
  unfold RpmPrepInput.headerLines
  simp [List.countP_cons, List.countP_nil,
    (show isDevelFilesLine "" = false from rfl),
    (show isDevelFilesLine "%undefine _debugsource_packages" = false
      from rfl),
    (show isDevelFilesLine "%undefine _debuginfo_subpackages" = false
      from rfl),
    (show isDevelFilesLine "Release:        1" = false from rfl),
    (show isDevelFilesLine "Group:          Applications/Internet" = false
      from rfl),
    isDevelFilesLine_false_second "%define _topdir " inp.topdir 'd' _
      rfl (by decide),
    isDevelFilesLine_false_second "%define _package_name "
      inp.full_package_name 'd' _ rfl (by decide),
    isDevelFilesLine_false_head "Name:           "
      (inp.pkgPre ++ inp.name) 'N' _ rfl (by decide),
    isDevelFilesLine_false_head "Version:        " inp.version 'V' _
      rfl (by decide),
    isDevelFilesLine_false_head "Summary:        " inp.summary 'S' _
      rfl (by decide),
    isDevelFilesLine_false_head "Source:         " inp.tarname 'S' _
      rfl (by decide),
    isDevelFilesLine_false_head "License:        " inp.licensesStr 'L' _
      rfl (by decide),
    isDevelFilesLine_false_head "Prefix:         " inp.install_dir 'P' _
      rfl (by decide),
    isDevelFilesLine_false_head "Packager:       " inp.packager 'P' _
      rfl (by decide),
    isDevelFilesLine_false_head "Vendor:         " inp.vendor 'V' _
      rfl (by decide)]

theorem countP_urlValueLines (inp : RpmPrepInput) :
    (inp.urlValueLines).countP (fun l => isDevelFilesLine l) = 0 := by
  unfold RpmPrepInput.urlValueLines
  split
  · simp [List.countP_cons, List.countP_nil,
      (show isDevelFilesLine "" = false from rfl),
      isDevelFilesLine_false_head "URL: " inp.url 'U' _ rfl (by decide)]
  · simp [List.countP_cons, List.countP_nil,
      (show isDevelFilesLine "" = false from rfl)]

theorem countP_develPackageLines (inp : RpmPrepInput) :
    ((RpmPrepInput.develPackageAndFilesLines inp).1).countP
      (fun l => isDevelFilesLine l) = 0 := by
  simp only [RpmPrepInput.develPackageAndFilesLines]
  simp [List.countP_append, List.countP_cons, List.countP_nil,
    countP_requiresLines, countP_pcoLines,
    (show isDevelFilesLine "" = false from rfl),
    (show isDevelFilesLine "%package devel" = false from rfl),
    (show isDevelFilesLine "%description devel" = false from rfl),
    isDevelFilesLine_false_head "Summary: Development files for "
      inp.name 'S' _ rfl (by decide),
    isDevelFilesLine_false_head "Development files for " inp.name 'D' _
      rfl (by decide)]

theorem countP_prepBlockLines :
    RpmPrepInput.prepBlockLines.countP (fun l => isDevelFilesLine l)
      = 0 := by decide

theorem countP_cleanBlockLines (inp : RpmPrepInput) :
    (RpmPrepInput.cleanBlockLines inp).countP
      (fun l => isDevelFilesLine l) = 0 := by
  unfold RpmPrepInput.cleanBlockLines
  rw [List.countP_append,
    (show RpmPrepInput.specCommentLines.countP
        (fun l => isDevelFilesLine l) = 0 by decide)]
  simp [List.countP_cons, List.countP_nil,
    (show isDevelFilesLine "" = false from rfl),
    (show isDevelFilesLine "%clean" = false from rfl),
    (show isDevelFilesLine "rm -rf $RPM_BUILD_ROOT" = false from rfl),
    isDevelFilesLine_false_head "export RPM_BUILD_DIR="
      inp.sources_dir 'e' _ rfl (by decide)]

theorem countP_scriptsValueLines (inp : RpmPrepInput)
    (h : ∀ l ∈ inp.preinstall.getD [] ++ inp.postinstall.getD []
        ++ inp.postremove.getD [], noNL l ∧ isDevelFilesLine l = false) :
    (inp.scriptsValueLines).countP (fun l => isDevelFilesLine l) = 0 := by
  unfold RpmPrepInput.scriptsValueLines
  simp only [List.countP_append]
  rw [countP_scriptPiece "%pre" inp.preinstall rfl
      (fun l hl => (h l (by simp [hl])).2),
    countP_scriptPiece "%post" inp.postinstall rfl
      (fun l hl => (h l (by simp [hl])).2),
    countP_scriptPiece "%postun" inp.postremove rfl
      (fun l hl => (h l (by simp [hl])).2)]
  decide

theorem countP_runtimeFilesValueLines (inp : RpmPrepInput)
    (hinst : isDevelFilesLine (pathJoin inp.install_dir "") = false) :
    (inp.runtimeFilesValueLines).countP (fun l => isDevelFilesLine l)
      = 0 := by
  unfold RpmPrepInput.runtimeFilesValueLines
  rw [List.countP_append, countP_valueLines_files]
  split
  · decide
  · simp [List.countP_cons, List.countP_nil, hinst]

theorem countP_develFrag (inp : RpmPrepInput)
    (hmeta : inp.build_meta_package = false) :
    ((RpmPrepInput.develPackageAndFilesLines inp).2).countP
        (fun l => isDevelFilesLine l)
      = if inp.develFiles = [] then 0 else 1 := by
  simp only [RpmPrepInput.develPackageAndFilesLines]
  unfold files_string_lines files_list_result
  rw [hmeta]
  simp only [Bool.false_eq_true, if_false]
  by_cases hdf : inp.develFiles = []
  · rw [if_pos hdf, if_pos hdf]
    decide
  · rw [if_neg hdf, if_neg hdf]
    rw [List.countP_cons,
      (show isDevelFilesLine "%files devel " = true from rfl)]
    have htail :
        ((if (addPycPyo inp.develFiles).map
              (fun x => pathJoin "%\x7bprefix\x7d" x) = [] then [""]
          else (addPycPyo inp.develFiles).map
              (fun x => pathJoin "%\x7bprefix\x7d" x)) : List String).countP
          (fun l => isDevelFilesLine l) = 0 := by
      split
      · decide
      · apply List.countP_eq_zero.mpr
        intro a ha
        rcases List.mem_map.mp ha with ⟨x, _, rfl⟩
        simp [isDevelFilesLine_manifest_line x]
    rw [htail]
    simp

/-- C7: for a non-meta package prepared with devel enabled, the rendered
spec document holds exactly one `%files devel` block opening when the
resolved devel file list is non-empty, and none when it is empty. -/
theorem c7_devel_files_block (inp : RpmPrepInput)
    (hmeta : inp.build_meta_package = false)
    (hdevel : inp.devel = true)
    (hwf : inp.wf) :
    countDevelFilesBlocks inp.renderedSpecLines
      = if inp.develFiles = [] then 0 else 1 := by
  obtain ⟨hscripts, hdesc, hinst, -, -⟩ := hwf
  unfold countDevelFilesBlocks RpmPrepInput.renderedSpecLines
  rw [hdevel]
  simp only [if_true, List.countP_append]
  rw [countP_headerLines, countP_urlValueLines, countP_requiresLines,
    countP_pcoLines, countP_develPackageLines, countP_prepBlockLines,
    countP_cleanBlockLines, countP_scriptsValueLines inp hscripts,
    countP_runtimeFilesValueLines inp hinst, countP_develFrag inp hmeta]
  simp [List.countP_cons, List.countP_nil, hdesc,
    (show isDevelFilesLine "" = false from rfl),
    (show isDevelFilesLine "%description" = false from rfl),
    (show isDevelFilesLine "%files" = false from rfl)]

theorem c7_devel_files_block_witness :
    let base : RpmPrepInput :=
      { name := "gstreamer", version := "1.0", summary := "GStreamer",
        longdesc := "default", vendor := "v", url := "default",
        licensesStr := "LGPL", packager := "pk", pkgPre := "",
        full_package_name := "gstreamer-1.0", tarname := "g.tar",
        topdir := "/top", sources_dir := "/srcs",
        install_dir := "/opt/g", build_meta_package := false,
        devel := true, runtimeFiles := ["bin/g"],
        develFiles := ["include/g.h"], runtimeReqs := [],
        develReqs := [], providesR := [], conflictsR := [],
        obsoletesR := [], providesD := [], conflictsD := [],
        obsoletesD := [], preinstall := none, postinstall := none,
        postremove := none }
    countDevelFilesBlocks base.renderedSpecLines = 1
      ∧ countDevelFilesBlocks
          { base with develFiles := [] }.renderedSpecLines = 0 := by
  intro base
  constructor
  · exact c7_devel_files_block base rfl rfl (by decide)
  · exact c7_devel_files_block { base with develFiles := [] } rfl rfl
      (by decide)

end Cerbero
